import Mathlib

/-!
Shallow embedding of the gesture-to-event engine of virtual_drum.py.

Python floats are modelled as exact rationals; Python int() truncation
toward zero is pyInt; Python truthiness of an Optional[str] is pyTruthy.
The three time.time() calls made while one finger sample is processed
(lines 233, 237, 238 of virtual_drum.py) are modelled as the single
timestamp carried by the sample, and the per-frame time.time() at line 241
is the frame's advance timestamp.  Rendering and audio playback are side
effects with no influence on engine state and are omitted; the appended
visual pulse stands for the emitted tap event.
-/

namespace VirtualDrum

/-- Constant TAP_THRESHOLD = 0.045 (virtual_drum.py line 46). -/
def TAP_THRESHOLD : ℚ := 45 / 1000

/-- Constant COOLDOWN = 0.25 (virtual_drum.py line 47). -/
def COOLDOWN : ℚ := 1 / 4

/-- Pulse lifetime 0.3 s, hard-coded at lines 242 and 244. -/
def PULSE_LIFETIME : ℚ := 3 / 10

/-- Maximal pulse radius 30 px, hard-coded at line 244. -/
def MAX_RADIUS : ℚ := 30

/-- Keys of FINGER_TIP_IDS in insertion order (lines 39-45). -/
def FINGER_NAMES : List String := ["thumb", "index", "middle", "ring", "pinky"]

/-- FINGER_COLORS dict (lines 87-93), as a function on the five keys. -/
def FINGER_COLORS (finger : String) : ℕ × ℕ × ℕ :=
  if finger = "thumb" then (255, 100, 100)
  else if finger = "index" then (255, 210, 30)
  else if finger = "middle" then (80, 220, 120)
  else if finger = "ring" then (100, 150, 255)
  else (200, 120, 255)

/-- zone_names list built in main (lines 198-204). -/
def ZONE_NAMES : List String := ["Kick", "Snare", "HiHat", "Tom", "Clap"]

/-- Python int() truncates toward zero. -/
def pyInt (q : ℚ) : ℤ := if q < 0 then ⌈q⌉ else ⌊q⌋

/-- Python truthiness of an Optional[str]: None and the empty string are falsy. -/
def pyTruthy : Option String → Bool
  | none => false
  | some s => s ≠ ""

/-- One zone tuple (x1, x2, y1, y2, name) as built by draw_zones (line 165). -/
structure Zone where
  x1 : ℤ
  x2 : ℤ
  y1 : ℤ
  y2 : ℤ
  name : String
deriving DecidableEq

/-- Geometry part of draw_zones (lines 157-172): zone_width = width // len(zone_names),
each zone i spans x1 = i * zone_width to x2 = x1 + zone_width; the overlay and
instrument art drawing have no effect on the returned tuples. -/
def draw_zones (width height : ℕ) (zone_names : List String) : List Zone :=
  let zone_width : ℕ := width / zone_names.length
  zone_names.enum.map fun p =>
    ⟨(p.1 * zone_width : ℕ), (p.1 * zone_width + zone_width : ℕ), 0, (height : ℤ), p.2⟩

/-- find_zone (lines 175-179): first zone whose inclusive pixel range contains x. -/
def find_zone : List Zone → ℤ → Option String
  | [], _ => none
  | z :: rest, x_pixel =>
    if z.x1 ≤ x_pixel ∧ x_pixel ≤ z.x2 then some z.name else find_zone rest x_pixel

/-- Per-finger state: prev_finger_y[finger] and last_trigger_time[finger]. -/
structure FingerState where
  prevY : ℚ
  lastTrigger : ℚ
deriving DecidableEq

/-- One fingertip observation: normalized landmark coordinates and the clock value. -/
structure Sample where
  x : ℚ
  y : ℚ
  tNow : ℚ
deriving DecidableEq

/-- One element of active_visuals: (x_pixel, y_pixel, color, start time) (line 238). -/
structure Pulse where
  x : ℤ
  y : ℤ
  color : ℕ × ℕ × ℕ
  start : ℚ
deriving DecidableEq

/-- Processing of one finger's landmark in a frame (lines 222-238): pixel
conversion, zone lookup, delta against the previous y, unconditional update of
prev_finger_y, and the tap condition guarding sound playback, the
last_trigger_time update and the pulse append.  The returned option is the
pulse appended on a tap, none when no tap fires. -/
def processFinger (zones : List Zone) (width height : ℕ) (finger : String)
    (st : FingerState) (s : Sample) : FingerState × Option Pulse :=
  let x_pixel := pyInt (s.x * width)
  let y_pixel := pyInt (s.y * height)
  let zone_name := find_zone zones x_pixel
  let delta_y := s.y - st.prevY
  let recent := s.tNow - st.lastTrigger
  if pyTruthy zone_name ∧ delta_y > TAP_THRESHOLD ∧ recent > COOLDOWN then
    (⟨s.y, s.tNow⟩, some ⟨x_pixel, y_pixel, FINGER_COLORS finger, s.tNow⟩)
  else
    (⟨s.y, st.lastTrigger⟩, none)

/-- Whole engine state: the two per-finger dicts (line 194-195) and
active_visuals (line 197). -/
structure EngineState where
  prev_finger_y : String → ℚ
  last_trigger_time : String → ℚ
  active_visuals : List Pulse

/-- State at session start: prev_finger_y and last_trigger_time are 0.0 for
every finger, active_visuals is empty (lines 194-197). -/
def initState : EngineState where
  prev_finger_y := fun _ => 0
  last_trigger_time := fun _ => 0
  active_visuals := []

/-- Effect of one finger's sample on the whole engine state. -/
def processSample (zones : List Zone) (width height : ℕ) (es : EngineState)
    (finger : String) (s : Sample) : EngineState :=
  let r := processFinger zones width height finger
    ⟨es.prev_finger_y finger, es.last_trigger_time finger⟩ s
  { prev_finger_y := Function.update es.prev_finger_y finger r.1.prevY
    last_trigger_time := Function.update es.last_trigger_time finger r.1.lastTrigger
    active_visuals := es.active_visuals ++ r.2.toList }

/-- The pulse-retirement filter at line 242: keep pulses with now - start < 0.3. -/
def advancePulses (pulses : List Pulse) (now : ℚ) : List Pulse :=
  pulses.filter fun v => now - v.start < PULSE_LIFETIME

/-- Radius of a surviving pulse at render time (line 244). -/
def renderRadius (now : ℚ) (v : Pulse) : ℤ :=
  pyInt (MAX_RADIUS * (1 - (now - v.start) / PULSE_LIFETIME)) + 1

/-- Input of one loop iteration: frame dimensions, the detected fingertip
samples in processing order, and the clock value taken at line 241 before the
pulse filter runs. -/
structure Frame where
  width : ℕ
  height : ℕ
  obs : List (String × Sample)
  advTime : ℚ
deriving DecidableEq

/-- One iteration of the main loop (lines 207-245), restricted to engine
state: recompute zones, process each detected fingertip in order, then filter
active_visuals by age. -/
def processFrame (es : EngineState) (fr : Frame) : EngineState :=
  let zones := draw_zones fr.width fr.height ZONE_NAMES
  let es1 := fr.obs.foldl
    (fun e p => processSample zones fr.width fr.height e p.1 p.2) es
  { es1 with active_visuals := advancePulses es1.active_visuals fr.advTime }

/-- A whole session: fold the loop body over a list of frames from the
start state. -/
def runEngine (frames : List Frame) : EngineState :=
  frames.foldl processFrame initState

/-- Repeated processing of one finger's samples against fixed zones,
accumulating the pulses it spawns. -/
def runFinger (zones : List Zone) (width height : ℕ) (finger : String)
    (st : FingerState) (ss : List Sample) : FingerState × List Pulse :=
  ss.foldl (fun acc s =>
    let r := processFinger zones width height finger acc.1 s
    (r.1, acc.2 ++ r.2.toList)) (st, [])

/-- The configuration block named in the spec: threshold, cooldown, pulse
lifetime, maximal radius and the ordered zone names. -/
structure Config where
  tapThreshold : ℚ
  cooldownSeconds : ℚ
  pulseLifetimeSeconds : ℚ
  maxPulseRadiusPixels : ℤ
  zoneNames : List String
deriving DecidableEq

/-- The values the reference hard-codes (lines 46-47, 242, 244, 198-204). -/
def referenceConfig : Config :=
  ⟨TAP_THRESHOLD, COOLDOWN, PULSE_LIFETIME, 30, ZONE_NAMES⟩

/-- Engine startup as the code performs it (lines 182-204): the state is
created directly from literals; no configuration value is inspected or
validated anywhere, so startup succeeds for every configuration. -/
def startEngine : Config → Option EngineState :=
  fun _ => some initState

/-! ## General lemmas about the embedded operations -/

theorem processFinger_eq (zones : List Zone) (w h : ℕ) (finger : String)
    (st : FingerState) (s : Sample) :
    processFinger zones w h finger st s =
      if pyTruthy (find_zone zones (pyInt (s.x * w))) ∧ s.y - st.prevY > TAP_THRESHOLD ∧
          s.tNow - st.lastTrigger > COOLDOWN then
        (⟨s.y, s.tNow⟩, some ⟨pyInt (s.x * w), pyInt (s.y * h), FINGER_COLORS finger, s.tNow⟩)
      else (⟨s.y, st.lastTrigger⟩, none) := rfl

theorem processFinger_fires_iff (zones : List Zone) (w h : ℕ) (finger : String)
    (st : FingerState) (s : Sample) :
    (processFinger zones w h finger st s).2.isSome ↔
      (pyTruthy (find_zone zones (pyInt (s.x * w))) ∧ s.y - st.prevY > TAP_THRESHOLD ∧
        s.tNow - st.lastTrigger > COOLDOWN) := by
  rw [processFinger_eq]
  split
  case isTrue hc => simp only [Option.isSome_some, true_iff]; exact hc
  case isFalse hc => simp only [Option.isSome_none, Bool.false_eq_true, false_iff]; exact hc

theorem processFinger_prevY (zones : List Zone) (w h : ℕ) (finger : String)
    (st : FingerState) (s : Sample) :
    (processFinger zones w h finger st s).1.prevY = s.y := by
  rw [processFinger_eq]
  split <;> rfl

theorem processFinger_lastTrigger_of_some (zones : List Zone) (w h : ℕ) (finger : String)
    (st : FingerState) (s : Sample)
    (hs : (processFinger zones w h finger st s).2.isSome) :
    (processFinger zones w h finger st s).1.lastTrigger = s.tNow := by
  rw [processFinger_eq] at hs ⊢
  split at hs
  case isTrue hc => rw [if_pos hc]
  case isFalse hc => simp at hs

theorem processFinger_lastTrigger_of_none (zones : List Zone) (w h : ℕ) (finger : String)
    (st : FingerState) (s : Sample)
    (hs : (processFinger zones w h finger st s).2 = none) :
    (processFinger zones w h finger st s).1.lastTrigger = st.lastTrigger := by
  rw [processFinger_eq] at hs ⊢
  split at hs
  case isTrue hc => simp at hs
  case isFalse hc => rw [if_neg hc]

theorem processFinger_no_tap_of_small_delta (zones : List Zone) (w h : ℕ) (finger : String)
    (st : FingerState) (s : Sample) (hd : s.y - st.prevY ≤ TAP_THRESHOLD) :
    processFinger zones w h finger st s = (⟨s.y, st.lastTrigger⟩, none) := by
  rw [processFinger_eq, if_neg]
  rintro ⟨-, hb, -⟩
  exact absurd hb (not_lt.2 hd)

theorem processFinger_no_tap_of_recent (zones : List Zone) (w h : ℕ) (finger : String)
    (st : FingerState) (s : Sample) (ht : s.tNow - st.lastTrigger ≤ COOLDOWN) :
    processFinger zones w h finger st s = (⟨s.y, st.lastTrigger⟩, none) := by
  rw [processFinger_eq, if_neg]
  rintro ⟨-, -, hc⟩
  exact absurd hc (not_lt.2 ht)

theorem runFinger_nil (zones : List Zone) (w h : ℕ) (finger : String) (st : FingerState) :
    runFinger zones w h finger st [] = (st, []) := rfl

theorem runFinger_aux (zones : List Zone) (w h : ℕ) (finger : String) (ss : List Sample)
    (st : FingerState) (ps : List Pulse) :
    ss.foldl (fun acc s =>
      let r := processFinger zones w h finger acc.1 s
      (r.1, acc.2 ++ r.2.toList)) (st, ps)
    = ((runFinger zones w h finger st ss).1, ps ++ (runFinger zones w h finger st ss).2) := by
  induction ss generalizing st ps with
  | nil => simp [runFinger]
  | cons s ss ih =>
    rw [runFinger, List.foldl_cons, List.foldl_cons, ih, ih]
    simp

theorem runFinger_cons (zones : List Zone) (w h : ℕ) (finger : String)
    (st : FingerState) (s : Sample) (ss : List Sample) :
    runFinger zones w h finger st (s :: ss) =
      ((runFinger zones w h finger (processFinger zones w h finger st s).1 ss).1,
        (processFinger zones w h finger st s).2.toList ++
          (runFinger zones w h finger (processFinger zones w h finger st s).1 ss).2) := by
  rw [runFinger, List.foldl_cons, runFinger_aux]
  simp

theorem find_zone_eq_none_iff (zones : List Zone) (x : ℤ) :
    find_zone zones x = none ↔ ∀ z ∈ zones, ¬(z.x1 ≤ x ∧ x ≤ z.x2) := by
  induction zones with
  | nil => simp [find_zone]
  | cons z rest ih =>
    rw [find_zone]
    split <;> simp_all

theorem find_zone_some_mem (zones : List Zone) (x : ℤ) (n : String)
    (hf : find_zone zones x = some n) :
    ∃ z ∈ zones, z.name = n ∧ z.x1 ≤ x ∧ x ≤ z.x2 := by
  induction zones with
  | nil => cases hf
  | cons z rest ih =>
    rw [find_zone] at hf
    split at hf
    · exact ⟨z, List.mem_cons_self z rest, Option.some_inj.1 hf, by assumption⟩
    · obtain ⟨z1, hz1, hr⟩ := ih hf
      exact ⟨z1, List.mem_cons_of_mem z hz1, hr⟩

theorem pyTruthy_find_zone (zones : List Zone) (x : ℤ)
    (hn : ∀ z ∈ zones, z.name ≠ "") :
    pyTruthy (find_zone zones x) = (find_zone zones x).isSome := by
  cases hf : find_zone zones x with
  | none => rfl
  | some n =>
    obtain ⟨z, hz, hzn, -⟩ := find_zone_some_mem zones x n hf
    simp [pyTruthy, hzn ▸ hn z hz]

theorem no_tap_during_cooldown (zones : List Zone) (w h : ℕ) (finger : String)
    (t0 : ℚ) (st : FingerState) (h1 : st.lastTrigger = t0) (ss : List Sample)
    (hss : ∀ s ∈ ss, s.tNow < t0 + COOLDOWN) :
    (runFinger zones w h finger st ss).2 = [] ∧
      (runFinger zones w h finger st ss).1.lastTrigger = t0 := by
  induction ss generalizing st with
  | nil => simp [runFinger_nil, h1]
  | cons s ss ih =>
    have hs : s.tNow - st.lastTrigger ≤ COOLDOWN := by
      have := hss s (List.mem_cons_self s ss)
      rw [h1]
      linarith
    rw [runFinger_cons, processFinger_no_tap_of_recent zones w h finger st s hs]
    simpa using ih ⟨s.y, st.lastTrigger⟩ h1 (fun s1 hs1 => hss s1 (List.mem_cons_of_mem s hs1))

/-! ## The claims -/

/-- C1: a tap is emitted iff the finger's x resolves to a zone, the downward
delta strictly exceeds TAP_THRESHOLD and the elapsed time since the last
trigger strictly exceeds COOLDOWN; and a sequence of samples whose deltas all
stay at or below TAP_THRESHOLD produces no tap. -/
theorem C1_tap_iff :
    (∀ (zones : List Zone) (w h : ℕ) (finger : String) (st : FingerState) (s : Sample),
      (∀ z ∈ zones, z.name ≠ "") →
      ((processFinger zones w h finger st s).2.isSome ↔
        ((find_zone zones (pyInt (s.x * w))).isSome ∧
          s.y - st.prevY > TAP_THRESHOLD ∧ s.tNow - st.lastTrigger > COOLDOWN))) ∧
    (∀ (zones : List Zone) (w h : ℕ) (finger : String) (st : FingerState) (ss : List Sample),
      List.Chain (fun a b => b - a ≤ TAP_THRESHOLD) st.prevY (ss.map Sample.y) →
      (runFinger zones w h finger st ss).2 = []) := by
  constructor
  · intro zones w h finger st s hn
    rw [processFinger_fires_iff, pyTruthy_find_zone zones _ hn]
  · intro zones w h finger st ss hchain
    induction ss generalizing st with
    | nil => simp [runFinger_nil]
    | cons s ss ih =>
      rw [List.map_cons, List.chain_cons] at hchain
      rw [runFinger_cons, processFinger_no_tap_of_small_delta zones w h finger st s hchain.1]
      simpa using ih ⟨s.y, st.lastTrigger⟩ hchain.2

/-- Witness for C1 at a concrete configuration: a qualifying sample fires, and
a two-sample sequence with small deltas yields no pulses. -/
theorem C1_tap_iff_witness :
    (processFinger (draw_zones 200 150 ZONE_NAMES) 200 150 "thumb"
        ⟨0, 0⟩ ⟨1/10, 2/10, 1⟩).2.isSome ∧
    (runFinger (draw_zones 200 150 ZONE_NAMES) 200 150 "index"
        ⟨0, 0⟩ [⟨1/10, 1/100, 1⟩, ⟨1/10, 2/100, 2⟩]).2 = [] := by
  constructor
  · refine (C1_tap_iff.1 (draw_zones 200 150 ZONE_NAMES) 200 150 "thumb"
      ⟨0, 0⟩ ⟨1/10, 2/10, 1⟩ (by decide)).mpr ⟨?_, ?_, ?_⟩
    · norm_num [pyInt, draw_zones, find_zone, ZONE_NAMES]
    · norm_num [TAP_THRESHOLD]
    · norm_num [COOLDOWN]
  · refine C1_tap_iff.2 (draw_zones 200 150 ZONE_NAMES) 200 150 "index"
      ⟨0, 0⟩ [⟨1/10, 1/100, 1⟩, ⟨1/10, 2/100, 2⟩] ?_
    norm_num [List.chain_cons, TAP_THRESHOLD]

/-- C2: once a tap fires at time t0 the finger's lastTriggerTimestamp becomes
t0, and no further sample of that finger taken strictly before t0 + COOLDOWN
can produce a second tap, however many qualifying samples occur. -/
theorem C2_cooldown_enforcement (zones : List Zone) (w h : ℕ) (finger : String)
    (st : FingerState) (s0 : Sample)
    (hfire : (processFinger zones w h finger st s0).2.isSome)
    (ss : List Sample) (hss : ∀ s ∈ ss, s.tNow < s0.tNow + COOLDOWN) :
    (processFinger zones w h finger st s0).1.lastTrigger = s0.tNow ∧
    (runFinger zones w h finger (processFinger zones w h finger st s0).1 ss).2 = [] := by
  have h1 := processFinger_lastTrigger_of_some zones w h finger st s0 hfire
  exact ⟨h1, (no_tap_during_cooldown zones w h finger s0.tNow _ h1 ss hss).1⟩

/-- Witness for C2: a firing first sample followed by two qualifying samples
inside the cooldown window, which produce no pulses. -/
theorem C2_cooldown_enforcement_witness :
    (runFinger (draw_zones 200 150 ZONE_NAMES) 200 150 "thumb"
      (processFinger (draw_zones 200 150 ZONE_NAMES) 200 150 "thumb"
        ⟨0, 0⟩ ⟨1/10, 2/10, 1⟩).1
      [⟨1/10, 3/10, 11/10⟩, ⟨1/10, 4/10, 12/10⟩]).2 = [] := by
  refine (C2_cooldown_enforcement (draw_zones 200 150 ZONE_NAMES) 200 150 "thumb"
    ⟨0, 0⟩ ⟨1/10, 2/10, 1⟩ ?_ [⟨1/10, 3/10, 11/10⟩, ⟨1/10, 4/10, 12/10⟩] ?_).2
  · rw [processFinger_fires_iff]
    refine ⟨?_, ?_, ?_⟩
    · norm_num [pyInt, draw_zones, find_zone, ZONE_NAMES, pyTruthy]
      decide
    · norm_num [TAP_THRESHOLD]
    · norm_num [COOLDOWN]
  · intro s hs
    simp only [List.mem_cons, List.not_mem_nil, or_false] at hs
    rcases hs with h | h <;> rw [h] <;> norm_num [COOLDOWN]

/-- C3: the advance step keeps exactly the pulses younger than PULSE_LIFETIME;
every surviving pulse is younger than PULSE_LIFETIME and a pulse spawned at t0
is gone at every time now with t0 + PULSE_LIFETIME less than or equal to now. -/
theorem C3_advance_retires_expired (pulses : List Pulse) (now : ℚ) :
    (∀ p : Pulse, p ∈ advancePulses pulses now ↔
      p ∈ pulses ∧ now - p.start < PULSE_LIFETIME) ∧
    (∀ p ∈ advancePulses pulses now, now - p.start < PULSE_LIFETIME) ∧
    (∀ p ∈ pulses, p.start + PULSE_LIFETIME ≤ now → p ∉ advancePulses pulses now) := by
  refine ⟨?_, ?_, ?_⟩
  · intro p
    simp [advancePulses, List.mem_filter]
  · intro p hp
    simp [advancePulses, List.mem_filter] at hp
    exact hp.2
  · intro p _ hold hmem
    simp [advancePulses, List.mem_filter] at hmem
    linarith [hmem.2]

/-- Witness for C3: a fresh pulse survives an advance and an expired one is
removed. -/
theorem C3_advance_retires_expired_witness :
    ((⟨5, 5, (255, 100, 100), 0⟩ : Pulse) ∈
        advancePulses [⟨5, 5, (255, 100, 100), 0⟩] (1/10)) ∧
    ((⟨5, 5, (255, 100, 100), 0⟩ : Pulse) ∉
        advancePulses [⟨5, 5, (255, 100, 100), 0⟩] 1) := by
  constructor
  · refine ((C3_advance_retires_expired [⟨5, 5, (255, 100, 100), 0⟩] (1/10)).1 _).mpr
      ⟨List.mem_cons_self _ _, ?_⟩
    norm_num [PULSE_LIFETIME]
  · refine (C3_advance_retires_expired [⟨5, 5, (255, 100, 100), 0⟩] 1).2.2 _
      (List.mem_cons_self _ _) ?_
    norm_num [PULSE_LIFETIME]

/-! ## Zone mapper lemmas and C4 -/

theorem draw_zones_length (width height : ℕ) (zone_names : List String) :
    (draw_zones width height zone_names).length = zone_names.length := by
  simp [draw_zones]

theorem draw_zones_getElem (width height : ℕ) (zone_names : List String) (i : ℕ) :
    (draw_zones width height zone_names)[i]? =
      (zone_names[i]?).map fun nm =>
        (⟨(i * (width / zone_names.length) : ℕ),
          (i * (width / zone_names.length) + width / zone_names.length : ℕ),
          0, (height : ℤ), nm⟩ : Zone) := by
  simp only [draw_zones, List.getElem?_map, List.getElem?_enum]
  cases zone_names[i]? <;> simp

theorem mem_draw_zones (width height : ℕ) (zone_names : List String) (z : Zone)
    (hz : z ∈ draw_zones width height zone_names) :
    ∃ i nm, zone_names[i]? = some nm ∧
      z = ⟨(i * (width / zone_names.length) : ℕ),
        (i * (width / zone_names.length) + width / zone_names.length : ℕ),
        0, (height : ℤ), nm⟩ := by
  simp only [draw_zones, List.mem_map] at hz
  obtain ⟨⟨i, nm⟩, hp, rfl⟩ := hz
  rw [List.mk_mem_enum_iff_getElem?] at hp
  exact ⟨i, nm, hp, rfl⟩

theorem find_zone_first (zones : List Zone) (x : ℤ) :
    ∀ (i : ℕ) (z : Zone), zones[i]? = some z →
      (∀ j z1, j < i → zones[j]? = some z1 → ¬(z1.x1 ≤ x ∧ x ≤ z1.x2)) →
      (z.x1 ≤ x ∧ x ≤ z.x2) → find_zone zones x = some z.name := by
  induction zones with
  | nil =>
    intro i z hz
    simp at hz
  | cons z0 rest ih =>
    intro i z hz hprev hit
    cases i with
    | zero =>
      rw [List.getElem?_cons_zero, Option.some_inj] at hz
      subst hz
      rw [find_zone, if_pos hit]
    | succ n =>
      rw [List.getElem?_cons_succ] at hz
      have h0 : ¬(z0.x1 ≤ x ∧ x ≤ z0.x2) :=
        hprev 0 z0 (Nat.succ_pos n) List.getElem?_cons_zero
      rw [find_zone, if_neg h0]
      refine ih n z hz (fun j z1 hj hz1 => ?_) hit
      exact hprev (j + 1) z1 (Nat.succ_lt_succ hj)
        (by rw [List.getElem?_cons_succ]; exact hz1)

theorem nat_tile_index (N zw xn : ℕ) (hN : 1 ≤ N) (hub : xn ≤ N * zw) :
    ∃ i, i < N ∧ i * zw ≤ xn ∧ xn ≤ i * zw + zw := by
  rcases Nat.eq_zero_or_pos zw with hzw | hzw
  · subst hzw
    refine ⟨0, hN, ?_, ?_⟩ <;> omega
  · by_cases hc : xn / zw ≤ N - 1
    · refine ⟨xn / zw, by omega, Nat.div_mul_le_self xn zw, ?_⟩
      have h1 := Nat.div_add_mod xn zw
      have h2 := Nat.mod_lt xn hzw
      have h3 : (xn / zw) * zw = zw * (xn / zw) := Nat.mul_comm _ _
      linarith
    · push_neg at hc
      have hN1 : N ≤ xn / zw := by omega
      have h4 : N * zw ≤ xn :=
        le_trans (Nat.mul_le_mul_right zw hN1) (Nat.div_mul_le_self xn zw)
      have hxeq : xn = N * zw := le_antisymm hub h4
      have h5 : (N - 1) * zw + zw = N * zw := by
        have h6 : (N - 1) * zw + zw = (N - 1 + 1) * zw := by ring
        rw [h6, Nat.sub_add_cancel hN]
      exact ⟨N - 1, by omega, by rw [hxeq]; exact Nat.mul_le_mul_right zw (by omega),
        by rw [hxeq, ← h5]⟩

theorem zone_index_cover (width height : ℕ) (zone_names : List String) (xn i : ℕ)
    (hiN : i < zone_names.length)
    (hlo : i * (width / zone_names.length) ≤ xn)
    (hhi : xn ≤ i * (width / zone_names.length) + width / zone_names.length) :
    ∃ z ∈ draw_zones width height zone_names, z.x1 ≤ (xn : ℤ) ∧ (xn : ℤ) ≤ z.x2 := by
  have hnm := List.getElem?_eq_getElem hiN
  have hz : (draw_zones width height zone_names)[i]? =
      some ⟨(i * (width / zone_names.length) : ℕ),
        (i * (width / zone_names.length) + width / zone_names.length : ℕ),
        0, (height : ℤ), zone_names.get ⟨i, hiN⟩⟩ := by
    rw [draw_zones_getElem, hnm]
    rfl
  refine ⟨_, List.getElem?_mem hz, ?_, ?_⟩
  · show ((i * (width / zone_names.length) : ℕ) : ℤ) ≤ (xn : ℤ)
    exact_mod_cast hlo
  · show (xn : ℤ) ≤ ((i * (width / zone_names.length) + width / zone_names.length : ℕ) : ℤ)
    exact_mod_cast hhi

theorem zone_cover (width height : ℕ) (zone_names : List String)
    (hN : 1 ≤ zone_names.length) (xn : ℕ)
    (hub : xn ≤ zone_names.length * (width / zone_names.length)) :
    ∃ z ∈ draw_zones width height zone_names, z.x1 ≤ (xn : ℤ) ∧ (xn : ℤ) ≤ z.x2 := by
  obtain ⟨i, hiN, hlo, hhi⟩ :=
    nat_tile_index zone_names.length (width / zone_names.length) xn hN hub
  exact zone_index_cover width height zone_names xn i hiN hlo hhi

theorem find_zone_draw_none_iff (width height : ℕ) (zone_names : List String)
    (hN : 1 ≤ zone_names.length) (x : ℤ) (hx : 0 ≤ x) :
    (find_zone (draw_zones width height zone_names) x = none ↔
      ((zone_names.length * (width / zone_names.length) : ℕ) : ℤ) < x) := by
  constructor
  · intro hnone
    by_contra hle
    push_neg at hle
    lift x to ℕ using hx with xn
    have hub : xn ≤ zone_names.length * (width / zone_names.length) := by exact_mod_cast hle
    obtain ⟨z, hzmem, hzc⟩ := zone_cover width height zone_names hN xn hub
    rw [find_zone_eq_none_iff] at hnone
    exact hnone z hzmem hzc
  · intro hgt
    rw [find_zone_eq_none_iff]
    rintro z hz ⟨h1, h2⟩
    obtain ⟨i, nm, hnm, rfl⟩ := mem_draw_zones width height zone_names z hz
    obtain ⟨hiN, -⟩ := List.getElem?_eq_some.1 hnm
    have hmul : i * (width / zone_names.length) + width / zone_names.length ≤
        zone_names.length * (width / zone_names.length) := by
      have h6 : i * (width / zone_names.length) + width / zone_names.length =
          (i + 1) * (width / zone_names.length) := by ring
      rw [h6]
      exact Nat.mul_le_mul_right _ hiN
    have h2a : x ≤ ((i * (width / zone_names.length) + width / zone_names.length : ℕ) : ℤ) := h2
    have hcast : ((i * (width / zone_names.length) + width / zone_names.length : ℕ) : ℤ) ≤
        ((zone_names.length * (width / zone_names.length) : ℕ) : ℤ) := by exact_mod_cast hmul
    linarith

/-- C4: the zone mapper produces one zone per name, each of width
floor(W/N), tiled left to right with the name order preserved; find_zone
returns the first zone in order whose inclusive bounds contain x; for a
nonnegative x the lookup fails exactly when x lies beyond the last zone's
right edge N * floor(W/N); and when N divides W no lookup with x between 0
and W fails. -/
theorem C4_zone_mapper (width height : ℕ) (zone_names : List String)
    (hN : 1 ≤ zone_names.length) :
    ((draw_zones width height zone_names).length = zone_names.length) ∧
    (∀ i : ℕ, (draw_zones width height zone_names)[i]? =
      (zone_names[i]?).map fun nm =>
        (⟨(i * (width / zone_names.length) : ℕ),
          (i * (width / zone_names.length) + width / zone_names.length : ℕ),
          0, (height : ℤ), nm⟩ : Zone)) ∧
    (∀ (x : ℤ) (i : ℕ) (z : Zone), (draw_zones width height zone_names)[i]? = some z →
      (∀ j z1, j < i → (draw_zones width height zone_names)[j]? = some z1 →
        ¬(z1.x1 ≤ x ∧ x ≤ z1.x2)) →
      (z.x1 ≤ x ∧ x ≤ z.x2) →
      find_zone (draw_zones width height zone_names) x = some z.name) ∧
    (∀ x : ℤ, 0 ≤ x →
      (find_zone (draw_zones width height zone_names) x = none ↔
        ((zone_names.length * (width / zone_names.length) : ℕ) : ℤ) < x)) ∧
    (∀ x : ℤ, 0 ≤ x → x ≤ (width : ℤ) → zone_names.length ∣ width →
      (find_zone (draw_zones width height zone_names) x).isSome) := by
  refine ⟨draw_zones_length width height zone_names,
    fun i => draw_zones_getElem width height zone_names i,
    fun x i z hz hprev hit => find_zone_first _ x i z hz hprev hit,
    fun x hx => find_zone_draw_none_iff width height zone_names hN x hx,
    fun x hx hxw hdvd => ?_⟩
  have hNzw : (zone_names.length * (width / zone_names.length) : ℕ) = width :=
    Nat.mul_div_cancel' hdvd
  rw [← Option.ne_none_iff_isSome]
  intro hnone
  rw [find_zone_draw_none_iff width height zone_names hN x hx, hNzw] at hnone
  linarith

/-- Witness for C4: with width 201 and five names the last right edge is
5 * 40 = 200, so pixel 201 has no zone; rounding gap, 5 does not divide 201. -/
theorem C4_zone_mapper_witness :
    find_zone (draw_zones 201 150 ZONE_NAMES) 201 = none := by
  refine ((C4_zone_mapper 201 150 ZONE_NAMES (by decide)).2.2.2.1 201 (by decide)).mpr ?_
  decide

/-! ## C5, C6: initial trigger time and construction-time validation -/

theorem pyInt_eq_floor (q : ℚ) (h : 0 ≤ q) : pyInt q = ⌊q⌋ :=
  if_neg (not_lt.2 h)

/-- C5 counterexample: at session start lastTriggerTimestamp is 0.0, not
negative infinity, so for a small clock value the cooldown condition is not
trivially satisfied: a first sample inside a zone with delta above the
threshold fires no tap when the clock reads 0.1, since 0.1 - 0.0 does not
exceed COOLDOWN. -/
theorem C5_counterexample :
    initState.last_trigger_time "thumb" = 0 ∧
    pyTruthy (find_zone (draw_zones 200 150 ZONE_NAMES)
      (pyInt ((1/10 : ℚ) * ((200 : ℕ) : ℚ)))) = true ∧
    (1/10 : ℚ) - initState.prev_finger_y "thumb" > TAP_THRESHOLD ∧
    (processFinger (draw_zones 200 150 ZONE_NAMES) 200 150 "thumb"
      ⟨initState.prev_finger_y "thumb", initState.last_trigger_time "thumb"⟩
      ⟨1/10, 1/10, 1/10⟩).2 = none := by
  refine ⟨rfl, ?_, ?_, ?_⟩
  · norm_num [pyInt, draw_zones, find_zone, ZONE_NAMES, pyTruthy]
    decide
  · norm_num [initState, TAP_THRESHOLD]
  · have hr : (⟨1/10, 1/10, 1/10⟩ : Sample).tNow -
        (⟨initState.prev_finger_y "thumb", initState.last_trigger_time "thumb"⟩ :
          FingerState).lastTrigger ≤ COOLDOWN := by
      norm_num [initState, COOLDOWN]
    rw [processFinger_no_tap_of_recent _ _ _ _ _ _ hr]

/-- C5 amended: every finger's lastTriggerTimestamp starts at 0.0 (not
negative infinity); a finger's first sample fires a tap iff it hits a zone,
its y exceeds TAP_THRESHOLD (delta equals y at start) and the clock value
itself exceeds COOLDOWN — so a first qualifying sample fires whenever the
clock has passed COOLDOWN, but not for arbitrarily small clock values. -/
theorem C5_first_fire (zones : List Zone) (w h : ℕ) (finger : String) (s : Sample) :
    initState.last_trigger_time finger = 0 ∧
    ((processFinger zones w h finger
        ⟨initState.prev_finger_y finger, initState.last_trigger_time finger⟩ s).2.isSome ↔
      (pyTruthy (find_zone zones (pyInt (s.x * w))) ∧
        s.y > TAP_THRESHOLD ∧ s.tNow > COOLDOWN)) := by
  refine ⟨rfl, ?_⟩
  rw [processFinger_fires_iff]
  norm_num [initState]

/-- Witness for C5's amended statement: a first sample at clock 1.0 with a
zone hit and a large delta fires. -/
theorem C5_first_fire_witness :
    (processFinger (draw_zones 200 150 ZONE_NAMES) 200 150 "thumb"
      ⟨initState.prev_finger_y "thumb", initState.last_trigger_time "thumb"⟩
      ⟨1/10, 2/10, 1⟩).2.isSome := by
  refine (C5_first_fire (draw_zones 200 150 ZONE_NAMES) 200 150 "thumb"
    ⟨1/10, 2/10, 1⟩).2.mpr ⟨?_, ?_, ?_⟩
  · norm_num [pyInt, draw_zones, find_zone, ZONE_NAMES, pyTruthy]
    decide
  · norm_num [TAP_THRESHOLD]
  · norm_num [COOLDOWN]

/-- C6 counterexample: constructing the engine with a non-positive threshold,
non-positive cooldown, non-positive lifetime and an empty zone-name list does
not fail: startup performs no validation and succeeds. -/
theorem C6_counterexample :
    startEngine ⟨0, 0, 0, 0, []⟩ = some initState := rfl

/-- C6 amended: the code performs no construction-time validation at all —
startup succeeds for every configuration, valid or not; the undefined
region is unreachable in the reference only because its hard-coded constants
are positive and its zone-name list is nonempty. -/
theorem C6_no_validation :
    (∀ cfg : Config, startEngine cfg = some initState) ∧
    0 < referenceConfig.tapThreshold ∧ 0 < referenceConfig.cooldownSeconds ∧
    0 < referenceConfig.pulseLifetimeSeconds ∧ 0 < referenceConfig.maxPulseRadiusPixels ∧
    referenceConfig.zoneNames ≠ [] := by
  refine ⟨fun _ => rfl, ?_, ?_, ?_, ?_, ?_⟩
  · norm_num [referenceConfig, TAP_THRESHOLD]
  · norm_num [referenceConfig, COOLDOWN]
  · norm_num [referenceConfig, PULSE_LIFETIME]
  · norm_num [referenceConfig]
  · decide

/-! ## C7: per-frame state effects -/

theorem processSample_other (zones : List Zone) (w h : ℕ) (es : EngineState)
    (g finger : String) (s : Sample) (hne : g ≠ finger) :
    (processSample zones w h es g s).prev_finger_y finger = es.prev_finger_y finger ∧
    (processSample zones w h es g s).last_trigger_time finger = es.last_trigger_time finger := by
  simp only [processSample]
  exact ⟨Function.update_noteq (Ne.symm hne) _ _, Function.update_noteq (Ne.symm hne) _ _⟩

theorem foldl_processSample_untouched (zones : List Zone) (w h : ℕ) (finger : String) :
    ∀ (obs : List (String × Sample)) (es : EngineState),
      (∀ p ∈ obs, p.1 ≠ finger) →
      ((obs.foldl (fun e p => processSample zones w h e p.1 p.2) es).prev_finger_y finger
          = es.prev_finger_y finger ∧
        (obs.foldl (fun e p => processSample zones w h e p.1 p.2) es).last_trigger_time finger
          = es.last_trigger_time finger)
  | [], _, _ => ⟨rfl, rfl⟩
  | p :: obs, es, hobs => by
    rw [List.foldl_cons]
    have h1 := processSample_other zones w h es p.1 finger p.2 (hobs p (List.mem_cons_self p obs))
    have ih := foldl_processSample_untouched zones w h finger obs
      (processSample zones w h es p.1 p.2) (fun q hq => hobs q (List.mem_cons_of_mem p hq))
    exact ⟨ih.1.trans h1.1, ih.2.trans h1.2⟩

/-- C7: a finger with a landmark has its previous y unconditionally
overwritten with the sample's y; its trigger timestamp becomes the sample
time exactly when a tap fires and is otherwise untouched; a finger that has
no landmark in a frame keeps both fields of its state unchanged. -/
theorem C7_state_update :
    (∀ (zones : List Zone) (w h : ℕ) (finger : String) (st : FingerState) (s : Sample),
      (processFinger zones w h finger st s).1.prevY = s.y) ∧
    (∀ (zones : List Zone) (w h : ℕ) (finger : String) (st : FingerState) (s : Sample),
      (processFinger zones w h finger st s).1.lastTrigger =
        if (processFinger zones w h finger st s).2.isSome then s.tNow else st.lastTrigger) ∧
    (∀ (fr : Frame) (es : EngineState) (finger : String),
      (∀ p ∈ fr.obs, p.1 ≠ finger) →
      ((processFrame es fr).prev_finger_y finger = es.prev_finger_y finger ∧
        (processFrame es fr).last_trigger_time finger = es.last_trigger_time finger)) := by
  refine ⟨processFinger_prevY, ?_, ?_⟩
  · intro zones w h finger st s
    cases hs : (processFinger zones w h finger st s).2 with
    | none => simp [processFinger_lastTrigger_of_none zones w h finger st s hs, hs]
    | some p =>
      simp [processFinger_lastTrigger_of_some zones w h finger st s (by simp [hs]), hs]
  · intro fr es finger hobs
    exact foldl_processSample_untouched (draw_zones fr.width fr.height ZONE_NAMES)
      fr.width fr.height finger fr.obs es hobs

/-- Witness for C7: a frame whose only landmark belongs to the thumb leaves
the index finger's state untouched. -/
theorem C7_state_update_witness :
    (processFrame initState ⟨200, 150, [("thumb", ⟨1/10, 2/10, 1⟩)], 1⟩).prev_finger_y "index"
        = initState.prev_finger_y "index" ∧
    (processFrame initState ⟨200, 150, [("thumb", ⟨1/10, 2/10, 1⟩)], 1⟩).last_trigger_time "index"
        = initState.last_trigger_time "index" :=
  C7_state_update.2.2 ⟨200, 150, [("thumb", ⟨1/10, 2/10, 1⟩)], 1⟩ initState "index"
    (by intro p hp; simp only [List.mem_singleton] at hp; rw [hp]; decide)

/-! ## C8: pulse radius decay -/

/-- C8: for a surviving pulse (age within the lifetime window) the rendered
radius equals floor(MAX_RADIUS * (1 - age / PULSE_LIFETIME)) + 1; the radius
is a non-increasing function of now on the window, and it equals 1 just
before removal (age beyond 29/30 of the lifetime). -/
theorem C8_radius_decay (v : Pulse) :
    (∀ now : ℚ, v.start ≤ now → now - v.start < PULSE_LIFETIME →
      renderRadius now v = ⌊MAX_RADIUS * (1 - (now - v.start) / PULSE_LIFETIME)⌋ + 1) ∧
    (∀ n1 n2 : ℚ, v.start ≤ n1 → n1 ≤ n2 → n2 - v.start < PULSE_LIFETIME →
      renderRadius n2 v ≤ renderRadius n1 v) ∧
    (∀ now : ℚ, v.start + PULSE_LIFETIME * (29/30) < now → now - v.start < PULSE_LIFETIME →
      renderRadius now v = 1) := by
  have hL : (0 : ℚ) < PULSE_LIFETIME := by norm_num [PULSE_LIFETIME]
  have hM : (0 : ℚ) ≤ MAX_RADIUS := by norm_num [MAX_RADIUS]
  have key : ∀ now : ℚ, v.start ≤ now → now - v.start < PULSE_LIFETIME →
      renderRadius now v = ⌊MAX_RADIUS * (1 - (now - v.start) / PULSE_LIFETIME)⌋ + 1 := by
    intro now h1 h2
    have hlt : (now - v.start) / PULSE_LIFETIME < 1 := (div_lt_one hL).mpr h2
    have harg : 0 ≤ MAX_RADIUS * (1 - (now - v.start) / PULSE_LIFETIME) :=
      mul_nonneg hM (by linarith)
    rw [renderRadius, pyInt_eq_floor _ harg]
  refine ⟨key, ?_, ?_⟩
  · intro n1 n2 h1 h12 h2
    rw [key n1 h1 (by linarith), key n2 (by linarith) h2]
    have hdiv : (n1 - v.start) / PULSE_LIFETIME ≤ (n2 - v.start) / PULSE_LIFETIME :=
      (div_le_div_iff_of_pos_right hL).mpr (by linarith)
    have hmul : MAX_RADIUS * (1 - (n2 - v.start) / PULSE_LIFETIME) ≤
        MAX_RADIUS * (1 - (n1 - v.start) / PULSE_LIFETIME) :=
      mul_le_mul_of_nonneg_left (by linarith) hM
    exact add_le_add_right (Int.floor_le_floor hmul) 1
  · intro now hlow h2
    have h1 : v.start ≤ now := by
      have : (0 : ℚ) < PULSE_LIFETIME * (29/30) := by norm_num [PULSE_LIFETIME]
      linarith
    rw [key now h1 h2]
    have harg_eq : MAX_RADIUS * (1 - (now - v.start) / PULSE_LIFETIME) =
        30 - 100 * (now - v.start) := by
      rw [MAX_RADIUS, PULSE_LIFETIME]
      field_simp
      ring
    have hlow2 : 29/100 < now - v.start := by
      rw [PULSE_LIFETIME] at hlow
      linarith
    have hfloor : ⌊MAX_RADIUS * (1 - (now - v.start) / PULSE_LIFETIME)⌋ = 0 := by
      rw [harg_eq, Int.floor_eq_zero_iff]
      constructor
      · show (0 : ℚ) ≤ 30 - 100 * (now - v.start)
        rw [PULSE_LIFETIME] at h2
        linarith
      · show (30 : ℚ) - 100 * (now - v.start) < 1
        linarith
    rw [hfloor]
    exact zero_add 1

/-- Witness for C8 at a pulse spawned at time 0: exact radius at age 0.1,
monotone drop from age 0.1 to age 0.2, and radius 1 at age 0.295. -/
theorem C8_radius_decay_witness :
    renderRadius (1/10) (⟨5, 5, (255, 100, 100), 0⟩ : Pulse) =
      ⌊MAX_RADIUS * (1 - ((1/10 : ℚ) - (0 : ℚ)) / PULSE_LIFETIME)⌋ + 1 ∧
    renderRadius (2/10) (⟨5, 5, (255, 100, 100), 0⟩ : Pulse) ≤
      renderRadius (1/10) (⟨5, 5, (255, 100, 100), 0⟩ : Pulse) ∧
    renderRadius (295/1000) (⟨5, 5, (255, 100, 100), 0⟩ : Pulse) = 1 := by
  refine ⟨(C8_radius_decay _).1 (1/10) ?_ ?_,
    (C8_radius_decay _).2.1 (1/10) (2/10) ?_ ?_ ?_,
    (C8_radius_decay _).2.2 (295/1000) ?_ ?_⟩ <;>
    norm_num [PULSE_LIFETIME]

/-! ## C9: first-frame behavior from the zero-initialized state -/

/-- C9 counterexample: on the first frame a finger is seen inside a zone with
y = 0.2 above TAP_THRESHOLD, yet no tap fires at clock 0.2 — the cooldown
gate against the initial trigger time 0.0 is still closed, so a first
observation does not always fire. -/
theorem C9_counterexample :
    initState.prev_finger_y "index" = 0 ∧
    pyTruthy (find_zone (draw_zones 200 150 ZONE_NAMES)
      (pyInt ((1/4 : ℚ) * ((200 : ℕ) : ℚ)))) = true ∧
    (1/5 : ℚ) - initState.prev_finger_y "index" > TAP_THRESHOLD ∧
    (processSample (draw_zones 200 150 ZONE_NAMES) 200 150 initState "index"
      ⟨1/4, 1/5, 1/5⟩).active_visuals = [] := by
  refine ⟨rfl, ?_, ?_, ?_⟩
  · norm_num [pyInt, draw_zones, find_zone, ZONE_NAMES, pyTruthy]
    decide
  · norm_num [initState, TAP_THRESHOLD]
  · have hr : (⟨1/4, 1/5, 1/5⟩ : Sample).tNow -
        (⟨initState.prev_finger_y "index", initState.last_trigger_time "index"⟩ :
          FingerState).lastTrigger ≤ COOLDOWN := by
      norm_num [initState, COOLDOWN]
    simp only [processSample]
    rw [processFinger_no_tap_of_recent _ _ _ _ _ _ hr]
    rfl

/-- C9 amended: previous vertical position starts at 0.0, so on the first
observed frame delta equals the raw y; a finger first observed inside a zone
at y above TAP_THRESHOLD fires on that first frame iff additionally the
clock value exceeds COOLDOWN (the trigger timestamp also starts at 0.0). -/
theorem C9_first_frame (zones : List Zone) (w h : ℕ) (finger : String) (s : Sample) :
    initState.prev_finger_y finger = 0 ∧
    s.y - initState.prev_finger_y finger = s.y ∧
    ((processFinger zones w h finger
        ⟨initState.prev_finger_y finger, initState.last_trigger_time finger⟩ s).2.isSome ↔
      (pyTruthy (find_zone zones (pyInt (s.x * w))) ∧
        s.y > TAP_THRESHOLD ∧ s.tNow > COOLDOWN)) := by
  refine ⟨rfl, by simp [initState], ?_⟩
  rw [processFinger_fires_iff]
  norm_num [initState]

/-- Witness for C9's amended statement: a first observation with y = 0.2 in a
zone at clock 0.3 fires on that very first frame. -/
theorem C9_first_frame_witness :
    (processFinger (draw_zones 200 150 ZONE_NAMES) 200 150 "index"
      ⟨initState.prev_finger_y "index", initState.last_trigger_time "index"⟩
      ⟨1/4, 1/5, 3/10⟩).2.isSome := by
  refine (C9_first_frame (draw_zones 200 150 ZONE_NAMES) 200 150 "index"
    ⟨1/4, 1/5, 3/10⟩).2.2.mpr ⟨?_, ?_, ?_⟩
  · norm_num [pyInt, draw_zones, find_zone, ZONE_NAMES, pyTruthy]
    decide
  · norm_num [TAP_THRESHOLD]
  · norm_num [COOLDOWN]

/-! ## C10: boundedness of the active pulse set -/

/-- Spawn times of the active pulses carrying a given finger's color. -/
def colorClass (pulses : List Pulse) (f : String) : List ℚ :=
  (pulses.filter fun v => v.color = FINGER_COLORS f).map Pulse.start

/-- Invariant tying active pulses to the per-finger cooldown state at a time
cursor T: every pulse was spawned no later than T and carries one of the five
finger colors; per finger, consecutive spawn times of its pulses are more
than COOLDOWN apart and none exceeds that finger's last trigger time. -/
def engineInv (es : EngineState) (T : ℚ) : Prop :=
  (∀ p ∈ es.active_visuals, p.start ≤ T ∧ ∃ f ∈ FINGER_NAMES, p.color = FINGER_COLORS f) ∧
  (∀ f ∈ FINGER_NAMES,
    (colorClass es.active_visuals f).Pairwise (fun a b => a + COOLDOWN < b) ∧
    ∀ t ∈ colorClass es.active_visuals f, t ≤ es.last_trigger_time f)

/-- State of the pulse set right after a frame's advance at time T. -/
def framePost (es : EngineState) (T : ℚ) : Prop :=
  engineInv es T ∧ ∀ p ∈ es.active_visuals, T - p.start < PULSE_LIFETIME

/-- The timestamps observed while one frame is processed, in program order. -/
def frameTimes (fr : Frame) : List ℚ :=
  (fr.obs.map fun p => p.2.tNow) ++ [fr.advTime]

/-- Monotonicity of the injected clock along a run, threaded by a cursor. -/
def timesMono : ℚ → List Frame → Prop
  | _, [] => True
  | T, fr :: rest => List.Chain (fun a b => a ≤ b) T (frameTimes fr) ∧ timesMono fr.advTime rest

theorem finger_colors_inj :
    ∀ f ∈ FINGER_NAMES, ∀ g ∈ FINGER_NAMES, FINGER_COLORS f = FINGER_COLORS g → f = g := by
  decide

theorem colorClass_append (l1 l2 : List Pulse) (f : String) :
    colorClass (l1 ++ l2) f = colorClass l1 f ++ colorClass l2 f := by
  simp [colorClass, List.filter_append]

theorem processSample_eq (zones : List Zone) (w h : ℕ) (es : EngineState)
    (g : String) (s : Sample) :
    processSample zones w h es g s =
      { prev_finger_y := Function.update es.prev_finger_y g
          (processFinger zones w h g ⟨es.prev_finger_y g, es.last_trigger_time g⟩ s).1.prevY
        last_trigger_time := Function.update es.last_trigger_time g
          (processFinger zones w h g ⟨es.prev_finger_y g, es.last_trigger_time g⟩ s).1.lastTrigger
        active_visuals := es.active_visuals ++
          (processFinger zones w h g ⟨es.prev_finger_y g, es.last_trigger_time g⟩ s).2.toList } :=
  rfl

theorem processFinger_some_elim (zones : List Zone) (w h : ℕ) (finger : String)
    (st : FingerState) (s : Sample) (p : Pulse)
    (hs : (processFinger zones w h finger st s).2 = some p) :
    p.color = FINGER_COLORS finger ∧ p.start = s.tNow ∧
      s.tNow - st.lastTrigger > COOLDOWN ∧
      (processFinger zones w h finger st s).1.lastTrigger = s.tNow := by
  rw [processFinger_eq] at hs ⊢
  split at hs
  case isTrue hc =>
    rw [Option.some_inj] at hs
    subst hs
    exact ⟨rfl, rfl, hc.2.2, by rw [if_pos hc]⟩
  case isFalse hc => cases hs

theorem COOLDOWN_pos : (0 : ℚ) < COOLDOWN := by norm_num [COOLDOWN]

theorem engineInv_processSample (zones : List Zone) (w h : ℕ) (es : EngineState)
    (g : String) (s : Sample) (T : ℚ) (hg : g ∈ FINGER_NAMES)
    (hinv : engineInv es T) (hT : T ≤ s.tNow) :
    engineInv (processSample zones w h es g s) s.tNow := by
  obtain ⟨hglob, hcls⟩ := hinv
  rw [processSample_eq]
  cases hfire : (processFinger zones w h g ⟨es.prev_finger_y g, es.last_trigger_time g⟩ s).2 with
  | none =>
    have hlt := processFinger_lastTrigger_of_none zones w h g _ s hfire
    constructor
    · intro p hp
      rw [Option.toList_none, List.append_nil] at hp
      exact ⟨le_trans (hglob p hp).1 hT, (hglob p hp).2⟩
    · intro f hf
      rw [Option.toList_none, List.append_nil]
      refine ⟨(hcls f hf).1, ?_⟩
      intro t ht
      dsimp only
      rcases eq_or_ne f g with rfl | hne
      · rw [Function.update_same, hlt]
        exact (hcls f hf).2 t ht
      · rw [Function.update_noteq hne]
        exact (hcls f hf).2 t ht
  | some p =>
    obtain ⟨hcol, hstart, hrec0, hlt⟩ :=
      processFinger_some_elim zones w h g _ s p hfire
    have hrec : s.tNow - es.last_trigger_time g > COOLDOWN := hrec0
    constructor
    · intro q hq
      rw [Option.toList_some, List.mem_append] at hq
      rcases hq with hq | hq
      · exact ⟨le_trans (hglob q hq).1 hT, (hglob q hq).2⟩
      · rw [List.mem_singleton] at hq
        subst hq
        exact ⟨le_of_eq hstart, ⟨g, hg, hcol⟩⟩
    · intro f hf
      rw [Option.toList_some, colorClass_append]
      rcases eq_or_ne f g with rfl | hne
      · have hone : colorClass [p] f = [p.start] := by
          simp [colorClass, hcol]
        rw [hone]
        constructor
        · rw [List.pairwise_append]
          refine ⟨(hcls f hf).1, by simp, ?_⟩
          intro a ha b hb
          rw [List.mem_singleton] at hb
          subst hb
          have haf := (hcls f hf).2 a ha
          rw [hstart]
          linarith
        · intro t ht
          dsimp only
          rw [Function.update_same, hlt]
          rw [List.mem_append] at ht
          rcases ht with ht | ht
          · have := (hcls f hf).2 t ht
            have hC := COOLDOWN_pos
            linarith
          · rw [List.mem_singleton] at ht
            subst ht
            rw [hstart]
      · have hnone : colorClass [p] f = [] := by
          have hnef : ¬(p.color = FINGER_COLORS f) := by
            rw [hcol]
            intro hcc
            exact hne (finger_colors_inj g hg f hf hcc).symm
          simp [colorClass, hnef]
        rw [hnone, List.append_nil]
        refine ⟨(hcls f hf).1, ?_⟩
        intro t ht
        dsimp only
        rw [Function.update_noteq hne]
        exact (hcls f hf).2 t ht

theorem engineInv_mono (es : EngineState) (T T2 : ℚ) (h12 : T ≤ T2)
    (hinv : engineInv es T) : engineInv es T2 :=
  ⟨fun p hp => ⟨le_trans ((hinv.1 p hp).1) h12, (hinv.1 p hp).2⟩, hinv.2⟩

theorem engineInv_foldObs (zones : List Zone) (w h : ℕ) :
    ∀ (obs : List (String × Sample)) (es : EngineState) (T Ta : ℚ),
      (∀ p ∈ obs, p.1 ∈ FINGER_NAMES) →
      List.Chain (fun a b => a ≤ b) T ((obs.map fun p => p.2.tNow) ++ [Ta]) →
      engineInv es T →
      engineInv (obs.foldl (fun e p => processSample zones w h e p.1 p.2) es) Ta
  | [], es, T, Ta, _, hchain, hinv => by
    rw [List.foldl_nil]
    rw [List.map_nil, List.nil_append, List.chain_cons] at hchain
    exact engineInv_mono es T Ta hchain.1 hinv
  | q :: obs, es, T, Ta, hobs, hchain, hinv => by
    rw [List.foldl_cons]
    rw [List.map_cons, List.cons_append, List.chain_cons] at hchain
    exact engineInv_foldObs zones w h obs (processSample zones w h es q.1 q.2) q.2.tNow Ta
      (fun r hr => hobs r (List.mem_cons_of_mem q hr)) hchain.2
      (engineInv_processSample zones w h es q.1 q.2 T
        (hobs q (List.mem_cons_self q obs)) hinv hchain.1)

theorem engineInv_advance (es : EngineState) (T : ℚ) (hinv : engineInv es T) :
    engineInv { es with active_visuals := advancePulses es.active_visuals T } T ∧
    ∀ p ∈ advancePulses es.active_visuals T, T - p.start < PULSE_LIFETIME := by
  obtain ⟨hglob, hcls⟩ := hinv
  have hsub : List.Sublist (advancePulses es.active_visuals T) es.active_visuals :=
    List.filter_sublist es.active_visuals
  constructor
  · constructor
    · intro p hp
      exact hglob p (hsub.subset hp)
    · intro f hf
      have hsubc : List.Sublist (colorClass (advancePulses es.active_visuals T) f)
          (colorClass es.active_visuals f) :=
        List.Sublist.map Pulse.start (List.Sublist.filter _ hsub)
      refine ⟨List.Pairwise.sublist hsubc (hcls f hf).1, ?_⟩
      intro t ht
      exact (hcls f hf).2 t (hsubc.subset ht)
  · intro p hp
    rw [advancePulses, List.mem_filter] at hp
    exact of_decide_eq_true hp.2

theorem framePost_processFrame (es : EngineState) (fr : Frame) (T : ℚ)
    (hobs : ∀ p ∈ fr.obs, p.1 ∈ FINGER_NAMES)
    (hchain : List.Chain (fun a b => a ≤ b) T (frameTimes fr))
    (hpost : framePost es T) :
    framePost (processFrame es fr) fr.advTime := by
  have hinv2 := engineInv_foldObs (draw_zones fr.width fr.height ZONE_NAMES)
    fr.width fr.height fr.obs es T fr.advTime hobs hchain hpost.1
  have h3 := engineInv_advance
    (fr.obs.foldl (fun e p =>
      processSample (draw_zones fr.width fr.height ZONE_NAMES) fr.width fr.height e p.1 p.2) es)
    fr.advTime hinv2
  exact ⟨h3.1, h3.2⟩

theorem framePost_run :
    ∀ (frames : List Frame) (es : EngineState) (T : ℚ),
      (∀ fr ∈ frames, ∀ p ∈ fr.obs, p.1 ∈ FINGER_NAMES) →
      timesMono T frames →
      framePost es T →
      ∃ T2, framePost (frames.foldl processFrame es) T2
  | [], _, T, _, _, hpost => ⟨T, hpost⟩
  | fr :: rest, es, T, hf, hm, hpost => by
    rw [List.foldl_cons]
    exact framePost_run rest (processFrame es fr) fr.advTime
      (fun g hg => hf g (List.mem_cons_of_mem fr hg)) hm.2
      (framePost_processFrame es fr T (hf fr (List.mem_cons_self fr rest)) hm.1 hpost)

theorem class_window_le_two (l : List ℚ) (T : ℚ)
    (hpw : l.Pairwise (fun a b => a + COOLDOWN < b))
    (hwin : ∀ t ∈ l, T - PULSE_LIFETIME < t ∧ t ≤ T) :
    l.length ≤ 2 := by
  match l with
  | [] => simp
  | [a] => simp
  | [a, b] => simp
  | a :: b :: c :: rest =>
    exfalso
    rw [List.pairwise_cons] at hpw
    have hab : a + COOLDOWN < b := hpw.1 b (List.mem_cons_self b (c :: rest))
    rw [List.pairwise_cons] at hpw
    have hbc : b + COOLDOWN < c := hpw.2.1 c (List.mem_cons_self c rest)
    have ha := hwin a (List.mem_cons_self a (b :: c :: rest))
    have hc := hwin c (List.mem_cons_of_mem a (List.mem_cons_of_mem b
      (List.mem_cons_self c rest)))
    rw [COOLDOWN] at hab hbc
    have haw := ha.1
    rw [PULSE_LIFETIME] at haw
    linarith [hc.2]

theorem colorClass_window (es : EngineState) (T : ℚ) (hpost : framePost es T) (f : String) :
    ∀ t ∈ colorClass es.active_visuals f, T - PULSE_LIFETIME < t ∧ t ≤ T := by
  intro t ht
  rw [colorClass, List.mem_map] at ht
  obtain ⟨p, hpf, rfl⟩ := ht
  rw [List.mem_filter] at hpf
  exact ⟨by linarith [hpost.2 p hpf.1], (hpost.1.1 p hpf.1).1⟩

theorem length_filter_split (l : List Pulse) (p : Pulse → Bool) :
    (l.filter p).length + (l.filter fun a => !(p a)).length = l.length := by
  induction l with
  | nil => rfl
  | cons a l ih =>
    cases hpa : p a <;> simp [List.filter_cons, hpa] <;> omega

theorem length_le_two_mul :
    ∀ (names : List String) (pulses : List Pulse),
      (∀ p ∈ pulses, ∃ f ∈ names, p.color = FINGER_COLORS f) →
      (∀ f ∈ names, (pulses.filter fun v => v.color = FINGER_COLORS f).length ≤ 2) →
      pulses.length ≤ 2 * names.length
  | [], [], _, _ => by simp
  | [], q :: pulses, hcol, _ => by
    obtain ⟨f, hf, -⟩ := hcol q (List.mem_cons_self q pulses)
    cases hf
  | f :: names, pulses, hcol, hcls => by
    have hsplit := length_filter_split pulses (fun v => v.color = FINGER_COLORS f)
    have hrest : (pulses.filter fun v => !(decide (v.color = FINGER_COLORS f))).length ≤
        2 * names.length := by
      refine length_le_two_mul names (pulses.filter fun v => !(decide (v.color = FINGER_COLORS f)))
        ?_ ?_
      · intro q hq
        rw [List.mem_filter] at hq
        obtain ⟨g, hg, hgc⟩ := hcol q hq.1
        rcases List.mem_cons.1 hg with rfl | hgn
        · exfalso
          rw [hgc] at hq
          simp at hq
        · exact ⟨g, hgn, hgc⟩
      · intro g hg
        have hsub : List.Sublist (pulses.filter fun v => !(decide (v.color = FINGER_COLORS f)))
            pulses :=
          List.filter_sublist pulses
        have := List.Sublist.filter (fun v => decide (v.color = FINGER_COLORS g)) hsub
        exact le_trans this.length_le (hcls g (List.mem_cons_of_mem f hg))
    have hhead : (pulses.filter fun v => v.color = FINGER_COLORS f).length ≤ 2 :=
      hcls f (List.mem_cons_self f names)
    rw [List.length_cons]
    omega

/-- C10: over any run with a monotone clock in which landmarks belong to the
five tracked fingers, after the per-frame advance each finger has at most 2
live pulses (one per COOLDOWN, retired after PULSE_LIFETIME < 2 * COOLDOWN),
so the active set never holds more than 10 pulses. -/
theorem C10_pulse_bound (t0 : ℚ) (frames : List Frame)
    (hf : ∀ fr ∈ frames, ∀ p ∈ fr.obs, p.1 ∈ FINGER_NAMES)
    (ht : timesMono t0 frames) :
    (∀ f ∈ FINGER_NAMES,
      ((runEngine frames).active_visuals.filter fun v =>
        v.color = FINGER_COLORS f).length ≤ 2) ∧
    (runEngine frames).active_visuals.length ≤ 10 := by
  have hpost0 : framePost initState t0 := by
    refine ⟨⟨?_, ?_⟩, ?_⟩
    · intro p hp
      cases hp
    · intro f _
      exact ⟨List.Pairwise.nil, fun t ht1 => by cases ht1⟩
    · intro p hp
      cases hp
  obtain ⟨T2, hpost⟩ := framePost_run frames initState t0 hf ht hpost0
  have hcls : ∀ f ∈ FINGER_NAMES,
      ((runEngine frames).active_visuals.filter fun v =>
        v.color = FINGER_COLORS f).length ≤ 2 := by
    intro f hmem
    have hlen := class_window_le_two (colorClass (runEngine frames).active_visuals f) T2
      (hpost.1.2 f hmem).1 (colorClass_window _ T2 hpost f)
    rw [colorClass, List.length_map] at hlen
    exact hlen
  refine ⟨hcls, ?_⟩
  have htot := length_le_two_mul FINGER_NAMES (runEngine frames).active_visuals
    (fun p hp => (hpost.1.1 p hp).2) hcls
  rw [show FINGER_NAMES.length = 5 from rfl] at htot
  exact htot

/-- Witness for C10: a one-frame run in which the thumb fires once; the
resulting active set obeys the bound. -/
theorem C10_pulse_bound_witness :
    (runEngine [⟨200, 150, [("thumb", ⟨1/10, 2/10, 1⟩)], 1⟩]).active_visuals.length ≤ 10 := by
  refine (C10_pulse_bound 0 [⟨200, 150, [("thumb", ⟨1/10, 2/10, 1⟩)], 1⟩] ?_ ?_).2
  · intro fr hfr p hp
    rw [List.mem_singleton] at hfr
    subst hfr
    simp only [List.mem_singleton] at hp
    rw [hp]
    decide
  · refine ⟨?_, trivial⟩
    rw [frameTimes]
    norm_num [List.chain_cons]

end VirtualDrum
